import Mathlib

/-!
# ms-xy/execute: a shallow embedding of the execution engine

The development follows the four source files of the package:
`formatOutput.go`, `Command.go`, `ExecResult.go` and `execute.go`.
Go byte slices and the byte view of Go strings are lists of bytes; Go
`error` values are an inductive type with one constructor per package
level error variable and constructors for the errors of the operating
system; goroutines that only communicate through a channel or through the
mutex guarded kill closure are modelled by the order in which they send or
acquire the lock.
-/

namespace execute

/-! ## Bytes and errors -/

/-- A Go `byte`. -/
abbrev Byte := Fin 256

/-- Go `error` values that occur in the package. The first three are the
`io` sentinels that `readFD` compares against, the next three the variables
`EOSTDOUT`, `EOSTDERR`, `ETIMEOUT` of `execute.go`, the next four the
variables of `Command.go`; `notExist` is an operating system error for which
`os.IsNotExist` holds and `other` any further error, both with the text that
their `Error()` method returns; `ExitError` is an `*exec.ExitError` with the
value of `ExitStatus()` of its wait status, and `IOError` the struct of
`execute.go` around an original error. -/
inductive GoError where
  | EOF
  | ErrClosedPipe
  | ErrUnexpectedEOF
  | EOSTDOUT
  | EOSTDERR
  | ETIMEOUT
  | ERR_WORKDIR_MISSING
  | ERR_WORKDIR_ISFILE
  | ERR_EXECUTABLE_ISDIR
  | ERR_NOTEXECUTABLE
  | notExist (text : String)
  | other (text : String)
  | ExitError (exitStatus : Int) (text : String)
  | IOError (Msg : String) (OriginalErr : GoError)
  deriving DecidableEq, Repr

/-- The `Error()` method. -/
def GoError.Error : GoError → String
  | .EOF => "EOF"
  | .ErrClosedPipe => "io: read/write on closed pipe"
  | .ErrUnexpectedEOF => "unexpected EOF"
  | .EOSTDOUT => "stdout overflow"
  | .EOSTDERR => "stderr overflow"
  | .ETIMEOUT => "timeout reached"
  | .ERR_WORKDIR_MISSING => "working directory is missing"
  | .ERR_WORKDIR_ISFILE => "working directory must be a directory"
  | .ERR_EXECUTABLE_ISDIR => "executable must be a file"
  | .ERR_NOTEXECUTABLE => "file is not executable"
  | .notExist text => text
  | .other text => text
  | .ExitError _ text => text
  | .IOError Msg OriginalErr => Msg ++ " - " ++ OriginalErr.Error

/-! ## formatOutput.go -/

/-- One lower case hexadecimal digit as an ASCII byte. -/
def hexDigit (d : Nat) : Byte :=
  if d < 10 then Fin.ofNat (48 + d) else Fin.ofNat (97 + (d - 10))

/-- The bytes of `fmt.Sprintf("\\x%02x", uint(r))`: a backslash, the letter
x and the two hexadecimal digits of the byte. -/
def sprintfHex (r : Byte) : List Byte :=
  [92, 120, hexDigit (r.val / 16), hexDigit (r.val % 16)]

/-- The test `r < ' ' || r == byte(127)` of the tokenizer. -/
def isControl (r : Byte) : Bool :=
  decide (r.val < 32) || decide (r.val = 127)

/-- The Go slice expression `s[i:j]`. -/
def slice (s : List Byte) (i j : Nat) : List Byte :=
  (s.drop i).take (j - i)

/-- The loop of the goroutine in `tokenizer`. The second argument is the part
of `s` from position `j` on, `i` and `j` are the two indices of the source
and `out` the strings sent on the channel so far, in sending order. When the
loop runs out of bytes the rest `s[i:]` is sent. -/
def tokenizerLoop (s : List Byte) : List Byte → Nat → Nat → List (List Byte) → List (List Byte)
  | [], i, _, out => out ++ [s.drop i]
  | r :: rest, i, j, out =>
    if isControl r then
      let out1 := if j - i > 1 then out ++ [slice s i j] else out
      tokenizerLoop s rest (j + 1) (j + 1) (out1 ++ [sprintfHex r])
    else
      tokenizerLoop s rest i (j + 1) out

/-- The strings that `tokenizer(s)` sends on its channel, in order. -/
def tokenizer (s : List Byte) : List (List Byte) :=
  tokenizerLoop s s 0 0 []

/-- The function `formatOutput`: the received strings joined with the empty
separator. -/
def formatOutput (outString : List Byte) : List Byte :=
  (tokenizer outString).flatten

/-- The escape of one byte as the documentation of the formatter has it. -/
def escapeByte (b : Byte) : List Byte :=
  if isControl b then sprintfHex b else [b]

/-- The byte-wise reference escape that the formatter is specified by. -/
def referenceEscape (s : List Byte) : List Byte :=
  (s.map escapeByte).flatten

/-! ## execute.go: readFD -/

/-- What one call of `reader.Read(buffer)` delivers: the bytes it stores at
the front of the buffer (the returned `n` is their number) and the returned
error. -/
structure ReadResult where
  chunk : List Byte
  err : Option GoError
  deriving DecidableEq, Repr

/-- A reader is the list of the results of its successive `Read` calls. A
reader whose list is used up never returns from the next call. -/
abbrev Reader := List ReadResult

/-- All bytes that the reads of a list deliver, in order. -/
def delivered (reads : List ReadResult) : List Byte :=
  (reads.map (fun r => r.chunk)).flatten

/-- The call `reader.Read(buffer)`: the chunk overwrites the front of the
buffer, the bytes behind it stay as earlier reads left them. -/
def Read (buffer : List Byte) (r : ReadResult) : Nat × List Byte × Option GoError :=
  (r.chunk.length, r.chunk ++ buffer.drop r.chunk.length, r.err)

/-- Go's builtin `copy(dst, src)`: the new contents of `dst`. It copies
`min(len(dst), len(src))` elements. -/
def goCopy (dst src : List Byte) : List Byte :=
  src.take (min dst.length src.length) ++ dst.drop (min dst.length src.length)

/-- The statement `copy(data[lo:hi], src)`: the new contents of `data`. -/
def copyAt (data : List Byte) (lo hi : Nat) (src : List Byte) : List Byte :=
  data.take lo ++ goCopy ((data.drop lo).take (hi - lo)) src ++ data.drop hi

/-- The end of `readFD`: `result = make([]byte, index); copy(result, data)`. -/
def readResult (data : List Byte) (index : Nat) : List Byte :=
  goCopy (List.replicate index 0) data

/-- The test `err == io.EOF || err == io.ErrClosedPipe ||
err == io.ErrUnexpectedEOF`. -/
def isStreamEnd (err : Option GoError) : Bool :=
  err == some GoError.EOF || err == some GoError.ErrClosedPipe ||
    err == some GoError.ErrUnexpectedEOF

/-- The `for` loop of `readFD` with its variables `data`, `index` and
`buffer`. The result is `none` when the reader never returns. -/
def readLoop (EOVER : GoError) :
    Reader → List Byte → Nat → List Byte → Option (List Byte × Option GoError)
  | [], _, _, _ => none
  | r :: rest, data, index, buffer =>
    match Read buffer r with
    | (n, buffer1, err) =>
      if n > 0 ∧ index + n > data.length then
        some (copyAt data index data.length buffer1, some EOVER)
      else
        let data1 := if n > 0 then copyAt data index (index + n) (buffer1.take n) else data
        let index1 := if n > 0 then index + n else index
        if isStreamEnd err then
          some (readResult data1 index1, none)
        else if err ≠ none then
          some (readResult data1 index1, err)
        else
          readLoop EOVER rest data1 index1 buffer1

/-- The function `readFD(reader, maxSize, EOVER)`. -/
def readFD (reader : Reader) (maxSize : Nat) (EOVER : GoError) :
    Option (List Byte × Option GoError) :=
  readLoop EOVER reader (List.replicate maxSize 0) 0 (List.replicate 1000 0)

/-! ## execute.go: the kill closure -/

/-- The result of `syscall.Kill(-cmd.Process.Pid, syscall.SIGKILL)`: nil, the
errno `ESRCH`, or any other error. -/
inductive SignalOutcome where
  | success
  | noSuchProcess
  | otherError
  deriving DecidableEq, Repr

/-- The three places that call `kill`: the stdout goroutine, the stderr
goroutine and the function scheduled by `time.AfterFunc`. -/
inductive Trigger where
  | stdout
  | stderr
  | timeout
  deriving DecidableEq, Repr

/-- The variables `isKilled` and `killReason` that the closure shares. -/
structure KillState where
  isKilled : Bool
  killReason : Option GoError
  deriving DecidableEq, Repr

/-- The variables as declared: `isKilled = false` and a nil `killReason`. -/
def KillState.init : KillState := ⟨false, none⟩

/-- One call `kill(reason)` by `trigger`, with the outcome that the signal
send has if this call sends. -/
structure KillCall where
  trigger : Trigger
  reason : GoError
  outcome : SignalOutcome
  deriving DecidableEq, Repr

/-- The body of the closure `kill`, run under `killLock`. The result is the
new state and whether `syscall.Kill` was called. -/
def kill (st : KillState) (reason : GoError) (outcome : SignalOutcome) : KillState × Bool :=
  if !st.isKilled then
    let st1 : KillState := { st with killReason := some reason }
    match outcome with
    | .noSuchProcess => (st1, true)
    | .otherError => (st1, true)
    | .success => ({ st1 with isKilled := true }, true)
  else
    (st, false)

/-- The state after a sequence of calls, taken in the order in which they
acquire the lock. -/
def killAll (st : KillState) : List KillCall → KillState
  | [] => st
  | c :: rest => killAll (kill st c.reason c.outcome).1 rest

/-- The number of calls of a sequence whose signal send succeeds. -/
def successfulSends (st : KillState) : List KillCall → Nat
  | [] => 0
  | c :: rest =>
    (if (kill st c.reason c.outcome).2 = true ∧ c.outcome = SignalOutcome.success then 1 else 0)
      + successfulSends (kill st c.reason c.outcome).1 rest

/-! ## Command.go -/

/-- The struct `Command`. A nil and an empty slice are both the empty list. -/
structure Command where
  LookupPath : Bool
  Executable : String
  WorkingDir : String
  Input : List Byte
  RlimitArgs : List String
  Arguments : List String
  Timeout : Int
  StdoutSize : Int
  StderrSize : Int
  deriving DecidableEq, Repr

/-- What `os.Stat` reports about a file: `IsDir()` and the permission bits of
`Mode()`. -/
structure FileInfo where
  IsDir : Bool
  Mode : Nat
  deriving DecidableEq, Repr

/-- The function `filepath.IsAbs` of a Unix system. -/
def IsAbs (path : String) : Bool :=
  path.data.head? == some '/'

/-- The elements of a cleaned path: empty elements and `.` are dropped, `..`
removes the element before it, stays at the front of a relative path and is
dropped at the root. `out` is the stack of the elements kept so far. -/
def cleanElems (rooted : Bool) : List (List Char) → List (List Char) → List (List Char)
  | [], out => out.reverse
  | e :: es, out =>
    if e = [] ∨ e = ['.'] then cleanElems rooted es out
    else if e = ['.', '.'] then
      match out with
      | top :: below =>
        if top = ['.', '.'] then cleanElems rooted es (e :: out)
        else cleanElems rooted es below
      | [] => if rooted then cleanElems rooted es [] else cleanElems rooted es [e]
    else cleanElems rooted es (e :: out)

/-- The function `filepath.Clean` of a Unix system. -/
def Clean (path : String) : String :=
  if path = "" then "."
  else
    let elems := cleanElems (IsAbs path) (path.data.splitOn '/') []
    let body := String.mk (List.intercalate ['/'] elems)
    if IsAbs path then "/" ++ body
    else if elems = [] then "."
    else body

/-- The function `filepath.Join` for two elements: the elements from the
first non-empty one on, joined by a slash and cleaned. -/
def Join (a b : String) : String :=
  if a ≠ "" then Clean (a ++ "/" ++ b)
  else if b ≠ "" then Clean b
  else ""

/-- The function `os.IsNotExist`. -/
def IsNotExist : Option GoError → Bool
  | some (.notExist _) => true
  | _ => false

/-- The struct `ExecResult` of `ExecResult.go`. -/
structure ExecResult where
  Stdout : List Byte
  Stderr : List Byte
  ExitCode : Int
  Error : String
  ModTime : Nat
  Killed : Bool
  KillReason : String
  deriving DecidableEq, Repr

/-- What the operating system does for one started command: the errors of
the three pipe openings and of `cmd.Start()`, the error with which `io.Copy`
into the stdin pipe ends for a given input, the reads of the two output
pipes, the error of `cmd.Wait()`, the calls of `kill` that reach the lock
before the result is assembled, in the order of lock acquisition and each
with the outcome of its signal send, and the value of `time.Now()`. -/
structure Process where
  StdinPipe : Option GoError
  StdoutPipe : Option GoError
  StderrPipe : Option GoError
  Start : Option GoError
  stdin : List Byte → Option GoError
  stdout : Reader
  stderr : Reader
  Wait : Option GoError
  lockOrder : List (Trigger × SignalOutcome)
  Now : Nat

/-- The part of the operating system and of the libraries that the package
talks to: `os.Getwd`, `os.Stat`, `exec.LookPath`, `os.Chdir`, `zglob.Glob`
(with the current directory as first argument) and the process that
`exec.Command(path, args...)` with `cmd.Dir = wdir` starts. `os.Getwd`
returns a rooted path. -/
structure World where
  Getwd : Except GoError String
  Stat : String → Except GoError FileInfo
  LookPath : String → Except GoError String
  Chdir : String → Option GoError
  Glob : String → String → List String × Option GoError
  Spawn : String → List String → String → Process
  getwd_rooted : ∀ cwd, Getwd = Except.ok cwd → IsAbs cwd = true

/-- The loop over `c.Arguments` in `verify`, run with the current directory
`dir`; `args` is the slice built so far. The error of the matcher is
dropped. -/
def globArguments (w : World) (dir : String) : List String → List String → List String
  | [], args => args
  | arg :: rest, args =>
    let matched := (w.Glob dir arg).1
    if matched.length > 0 then globArguments w dir rest (args ++ matched)
    else globArguments w dir rest (args ++ [arg])

/-- The resolution of a relative `c.WorkingDir` in `verify`. -/
def resolveWorkingDir (cwd : String) (c : Command) : Command :=
  if !IsAbs c.WorkingDir then { c with WorkingDir := Join cwd c.WorkingDir } else c

/-- The resolution of a relative `c.Executable` in `verify`. -/
def resolveExecutable (w : World) (c : Command) : Except GoError Command :=
  if !IsAbs c.Executable then
    let path := Join c.WorkingDir c.Executable
    match w.Stat path with
    | .error err =>
      if IsNotExist (some err) then
        match w.LookPath c.Executable with
        | .error err => .error err
        | .ok path => .ok { c with Executable := path }
      else .error err
    | .ok _ => .ok { c with Executable := path }
  else .ok c

/-- The checks of `verify` on the executable and on the working directory. -/
def checkPaths (w : World) (c : Command) : Except GoError Unit :=
  match w.Stat c.Executable with
  | .error err => .error err
  | .ok f =>
    if f.IsDir then .error GoError.ERR_EXECUTABLE_ISDIR
    else if f.Mode &&& 0o111 = 0 then .error GoError.ERR_NOTEXECUTABLE
    else
      match w.Stat c.WorkingDir with
      | .error err =>
        if IsNotExist (some err) then .error GoError.ERR_WORKDIR_MISSING else .error err
      | .ok f => if !f.IsDir then .error GoError.ERR_WORKDIR_ISFILE else .ok ()

/-- The method `Command.verify`: the error, or the command as the method
leaves it. The current directory is set back to `cwd` on return. -/
def Command.verify (w : World) (c : Command) : Except GoError Command :=
  match w.Getwd with
  | .error err => .error err
  | .ok cwd =>
    match resolveExecutable w (resolveWorkingDir cwd c) with
    | .error err => .error err
    | .ok c2 =>
      match checkPaths w c2 with
      | .error err => .error err
      | .ok _ =>
        match w.Chdir c2.WorkingDir with
        | some err => .error err
        | none => .ok { c2 with Arguments := globArguments w c2.WorkingDir c2.Arguments [] }

/-- The block that the specification gives for one argument: the paths the
pattern matched when there are any, the literal argument otherwise. -/
def argumentBlock (w : World) (dir : String) (arg : String) : List String :=
  if (w.Glob dir arg).1 = [] then [arg] else (w.Glob dir arg).1

/-! ## execute.go: Execute -/

/-- Modelled from the spec: `slices.StringSlicesJoin` of the Tutortool
utilities is not among the sources; the rewritten argument list is the first
slice followed by the second followed by the third. -/
def StringSlicesJoin (parts : List (List String)) : List String :=
  parts.flatten

/-- Modelled from the spec: `errorutils.GetString` of the Tutortool utilities
is not among the sources; the `Error` field is empty for a nil error and is
the text of the error otherwise. -/
def GetString : Option GoError → String
  | none => ""
  | some err => err.Error

/-- The function `GetExitCode`. -/
def GetExitCode : Option GoError → Int
  | some (.ExitError exitStatus _) => exitStatus
  | _ => 0

/-- The function `NewIOError`. -/
def NewIOError (msg : String) (original : GoError) : GoError :=
  GoError.IOError msg original

/-- The rewriting of the command for the resource limiter. -/
def rlimitRewrite (command : Command) : Command :=
  if command.RlimitArgs.length > 0 then
    { command with
      Arguments := StringSlicesJoin
        [command.RlimitArgs,
         ["-wdir", command.WorkingDir, "-executable", command.Executable, "--"],
         command.Arguments]
      Executable := "./rlimiter"
      WorkingDir := "." }
  else command

/-- The defaults of the two output sizes. -/
def applyDefaults (command : Command) : Command :=
  let c1 := if command.StdoutSize = 0 then { command with StdoutSize := 10000 } else command
  if c1.StderrSize = 0 then { c1 with StderrSize := 10000 } else c1

/-- The function `feedFD`: the error of `io.Copy`. -/
def feedFD (input : List Byte) (writer : List Byte → Option GoError) : Option GoError :=
  writer input

/-- The calls of `kill` in lock order. The stdout goroutine calls with
`stdoutError` when that is not nil, the stderr goroutine with `stderrError`
when that is not nil, and the timer, which exists when `Timeout > 0`, with
`ETIMEOUT`. -/
def killCalls (command : Command) (stdoutError stderrError : Option GoError) :
    List (Trigger × SignalOutcome) → List KillCall
  | [] => []
  | (Trigger.stdout, o) :: rest =>
    match stdoutError with
    | some e => ⟨Trigger.stdout, e, o⟩ :: killCalls command stdoutError stderrError rest
    | none => killCalls command stdoutError stderrError rest
  | (Trigger.stderr, o) :: rest =>
    match stderrError with
    | some e => ⟨Trigger.stderr, e, o⟩ :: killCalls command stdoutError stderrError rest
    | none => killCalls command stdoutError stderrError rest
  | (Trigger.timeout, o) :: rest =>
    if command.Timeout > 0 then
      ⟨Trigger.timeout, GoError.ETIMEOUT, o⟩ :: killCalls command stdoutError stderrError rest
    else killCalls command stdoutError stderrError rest

/-- The choice of the one returned error at the end of `Execute`. -/
def chooseError (programError stdinError stdoutError stderrError : Option GoError) :
    Option GoError :=
  if programError ≠ none then programError
  else if stdinError ≠ none then stdinError
  else if stdoutError ≠ none then stdoutError
  else if stderrError ≠ none then stderrError
  else none

/-- How a call of `Execute` ends: with a panic, with the return of a nil
result and an error, never (a reader that does not return), or with the
return of a result and the chosen error. -/
inductive Outcome where
  | panicked (err : GoError)
  | failed (err : GoError)
  | hangs
  | returned (result : ExecResult) (err : Option GoError)
  deriving DecidableEq, Repr

/-- The result assembly of `Execute`. Calling `Error()` on a nil
`killReason` panics. -/
def assemble (programError stdinError stdoutError stderrError : Option GoError)
    (stdoutBytes stderrBytes : List Byte) (st : KillState) (now : Nat) : Outcome :=
  let exitCode := GetExitCode programError
  let err := chooseError programError stdinError stdoutError stderrError
  let result : ExecResult :=
    { ExitCode := exitCode
      Stdout := stdoutBytes
      Stderr := stderrBytes
      Error := GetString err
      ModTime := now
      Killed := st.isKilled
      KillReason := "" }
  if st.isKilled then
    match st.killReason with
    | some reason => .returned { result with KillReason := reason.Error } err
    | none => .panicked (GoError.other "invalid memory address or nil pointer dereference")
  else .returned result err

/-- The part of `Execute` after `cmd.Start()`: the three goroutines, the
timer, `cmd.Wait()` and the result assembly. A negative size makes `make`
in `readFD` panic. -/
def runStarted (command : Command) (p : Process) : Outcome :=
  if command.StdoutSize < 0 ∨ command.StderrSize < 0 then
    .panicked (GoError.other "makeslice: len out of range")
  else
    let stdinError := feedFD command.Input p.stdin
    match readFD p.stdout command.StdoutSize.toNat GoError.EOSTDOUT,
          readFD p.stderr command.StderrSize.toNat GoError.EOSTDERR with
    | some (stdoutBytes, stdoutError), some (stderrBytes, stderrError) =>
      let st := killAll KillState.init (killCalls command stdoutError stderrError p.lockOrder)
      assemble p.Wait stdinError stdoutError stderrError stdoutBytes stderrBytes st p.Now
    | _, _ => .hangs

/-- The part of `Execute` up to `cmd.Start()`: verification, limiter
rewriting, defaults, and the start of the process with its three pipes. The
result is the way `Execute` ends there, or the command as rewritten and the
started process. -/
def prepare (w : World) (command : Command) : Except Outcome (Command × Process) :=
  match Command.verify w command with
  | .error err => .error (.panicked err)
  | .ok c1 =>
    let c2 := applyDefaults (rlimitRewrite c1)
    let p := w.Spawn c2.Executable c2.Arguments c2.WorkingDir
    match p.StdinPipe with
    | some err => .error (.failed (NewIOError "Opening stdin pipe failed" err))
    | none =>
      match p.StdoutPipe with
      | some err => .error (.failed (NewIOError "Opening stdout pipe failed" err))
      | none =>
        match p.StderrPipe with
        | some err => .error (.failed (NewIOError "Opening stderr pipe failed" err))
        | none =>
          match p.Start with
          | some err => .error (.failed (NewIOError "Starting program failed" err))
          | none => .ok (c2, p)

/-- The function `Execute`. -/
def Execute (w : World) (command : Command) : Outcome :=
  match prepare w command with
  | .error o => o
  | .ok (c, p) => runStarted c p

/-- The first non-nil error of a list, the priority rule of the
specification. -/
def firstNonNil : List (Option GoError) → Option GoError
  | [] => none
  | some e :: _ => some e
  | none :: rest => firstNonNil rest

/-- The first call of a sequence whose signal outcome is success. -/
def firstSuccess : List KillCall → Option KillCall
  | [] => none
  | c :: rest => if c.outcome = SignalOutcome.success then some c else firstSuccess rest

/-- Whether an error value is nil or has a non-empty text. The errors that
the operating system hands to the package (`io.EOF`, `*fs.PathError`,
`*exec.ExitError`) all have one. -/
def hasText : Option GoError → Bool
  | none => true
  | some err => decide (err.Error ≠ "")

/-- Whether the three pipes of a process open and `cmd.Start()` succeeds. -/
def Process.started (p : Process) : Bool :=
  p.StdinPipe.isNone && p.StdoutPipe.isNone && p.StderrPipe.isNone && p.Start.isNone

/-! ## Sample worlds -/

/-- A command with an absolute executable and working directory, a size of
two bytes for stdout and of four bytes for stderr, and a timeout. -/
def sampleCommand : Command :=
  { LookupPath := false
    Executable := "/bin/prog"
    WorkingDir := "/work"
    Input := [104, 105]
    RlimitArgs := []
    Arguments := ["-v", "*.c"]
    Timeout := 5
    StdoutSize := 2
    StderrSize := 4 }

/-- A world with the directory `/work`, the executable file `/bin/prog`, the
two files `a.c` and `b.c` that the pattern `*.c` matches, and the process
`p` for whatever command is started. -/
def sampleWorld (p : Process) : World :=
  { Getwd := Except.ok "/home/u"
    Stat := fun path =>
      if path = "/work" then Except.ok ⟨true, 0o755⟩
      else if path = "/bin/prog" then Except.ok ⟨false, 0o755⟩
      else Except.error (GoError.notExist "no such file or directory")
    LookPath := fun _ => Except.error (GoError.other "executable file not found in $PATH")
    Chdir := fun _ => none
    Glob := fun _ pattern => if pattern = "*.c" then (["a.c", "b.c"], none) else ([], none)
    Spawn := fun _ _ _ => p
    getwd_rooted := by
      intro cwd h
      cases h
      rfl }

/-- A child that writes three bytes to stdout and is killed for it. -/
def floodProcess : Process :=
  { StdinPipe := none
    StdoutPipe := none
    StderrPipe := none
    Start := none
    stdin := fun _ => none
    stdout := [⟨[120, 121, 122], none⟩, ⟨[], some GoError.EOF⟩]
    stderr := [⟨[], some GoError.EOF⟩]
    Wait := some (GoError.ExitError (-1) "signal: killed")
    lockOrder := [(Trigger.stdout, SignalOutcome.success)]
    Now := 0 }

/-- A child that writes nothing and is killed by the timer. -/
def sleepProcess : Process :=
  { StdinPipe := none
    StdoutPipe := none
    StderrPipe := none
    Start := none
    stdin := fun _ => none
    stdout := [⟨[], some GoError.EOF⟩]
    stderr := [⟨[], some GoError.EOF⟩]
    Wait := some (GoError.ExitError (-1) "signal: killed")
    lockOrder := [(Trigger.timeout, SignalOutcome.success)]
    Now := 0 }

/-- The verified form of `sampleCommand`: the pattern `*.c` is replaced by
the two files it matches. -/
def sampleVerified : Command :=
  { sampleCommand with Arguments := ["-v", "a.c", "b.c"] }

/-- The command `sampleCommand` with arguments for the resource limiter. -/
def limitedCommand : Command :=
  { sampleCommand with RlimitArgs := ["-cpu", "1"] }

/-- The verified form of `limitedCommand`. -/
def limitedVerified : Command :=
  { limitedCommand with Arguments := ["-v", "a.c", "b.c"] }

/-- The bytes of a command line: the path and the arguments, separated by
blanks. -/
def argvBytes (path : String) (args : List String) : List Byte :=
  (String.intercalate " " (path :: args)).data.map (fun ch => Fin.ofNat ch.toNat)

/-- A child that writes its command line to stdout and its working directory
to stderr and exits with status 0. -/
def echoProcess (path : String) (args : List String) (wdir : String) : Process :=
  { StdinPipe := none
    StdoutPipe := none
    StderrPipe := none
    Start := none
    stdin := fun _ => none
    stdout := [⟨argvBytes path args, some GoError.EOF⟩]
    stderr := [⟨argvBytes wdir [], some GoError.EOF⟩]
    Wait := none
    lockOrder := []
    Now := 0 }

/-- The world of `sampleWorld` in which every started command is an
`echoProcess` of its own path, arguments and working directory. -/
def echoWorld : World :=
  { Getwd := Except.ok "/home/u"
    Stat := fun path =>
      if path = "/work" then Except.ok ⟨true, 0o755⟩
      else if path = "/bin/prog" then Except.ok ⟨false, 0o755⟩
      else Except.error (GoError.notExist "no such file or directory")
    LookPath := fun _ => Except.error (GoError.other "executable file not found in $PATH")
    Chdir := fun _ => none
    Glob := fun _ pattern => if pattern = "*.c" then (["a.c", "b.c"], none) else ([], none)
    Spawn := echoProcess
    getwd_rooted := by
      intro cwd h
      cases h
      rfl }

/-- Three calls of `kill` in lock order: the stderr reader, whose signal
finds no process, the timer, whose signal is sent, and the stdout reader. -/
def sampleCalls : List KillCall :=
  [⟨Trigger.stderr, GoError.EOSTDERR, SignalOutcome.noSuchProcess⟩,
   ⟨Trigger.timeout, GoError.ETIMEOUT, SignalOutcome.success⟩,
   ⟨Trigger.stdout, GoError.EOSTDOUT, SignalOutcome.success⟩]

/-- The function `findExecutable` of `os/exec` on Unix over a given
`os.Stat`: nil for a file that is not a directory and has an execute bit. -/
def findExecutable (stat : String → Except GoError FileInfo) (file : String) :
    Option GoError :=
  match stat file with
  | .error err => some err
  | .ok d =>
    if d.IsDir then some (GoError.other "is a directory")
    else if d.Mode &&& 0o111 ≠ 0 then none
    else some (GoError.other "permission denied")

/-- The search of `exec.LookPath` through the directories of `PATH`; an
empty entry stands for the current directory, and a hit that is not an
absolute path is returned as the error `ErrDot`. -/
def lookPathIn (stat : String → Except GoError FileInfo) (file : String) :
    List String → Except GoError String
  | [] => .error (GoError.other "executable file not found in $PATH")
  | dir :: dirs =>
    let path := Join (if dir = "" then "." else dir) file
    if findExecutable stat path = none then
      if !IsAbs path then
        .error (GoError.other "cannot run executable found relative to current directory")
      else .ok path
    else lookPathIn stat file dirs

/-- The function `exec.LookPath` of `os/exec` on Unix over a given `os.Stat`
and list of `PATH` directories: a name that contains a slash is tried
directly and returned as it is, any other name is searched in `PATH`. -/
def LookPath (stat : String → Except GoError FileInfo) (pathEnv : List String)
    (file : String) : Except GoError String :=
  if file.data.contains '/' then
    match findExecutable stat file with
    | none => .ok file
    | some err => .error err
  else lookPathIn stat file pathEnv

/-- The files of `scriptWorld`: the directory `/work` with the executable
file `tool.sh` in it and, in the current directory `/home/u`, the executable
file `run.sh`, which `os.Stat` finds under its absolute name and under the
name `./run.sh`. -/
def scriptStat (path : String) : Except GoError FileInfo :=
  if path = "/work" then Except.ok ⟨true, 0o755⟩
  else if path = "./run.sh" ∨ path = "/home/u/run.sh" ∨ path = "/work/tool.sh" then
    Except.ok ⟨false, 0o755⟩
  else Except.error (GoError.notExist "no such file or directory")

/-- The start of a command in `scriptWorld`: the child changes to `wdir`
first, so a relative path is looked for there; when the file is missing
`cmd.Start()` fails, otherwise the child exits with status 0 without
output. -/
def scriptSpawn (path : String) (_args : List String) (wdir : String) : Process :=
  { StdinPipe := none
    StdoutPipe := none
    StderrPipe := none
    Start :=
      match scriptStat (if IsAbs path then path else Join wdir path) with
      | .ok _ => none
      | .error _ =>
        some (GoError.notExist ("fork/exec " ++ path ++ ": no such file or directory"))
    stdin := fun _ => none
    stdout := [⟨[], some GoError.EOF⟩]
    stderr := [⟨[], some GoError.EOF⟩]
    Wait := none
    lockOrder := []
    Now := 0 }

/-- A world in which the script `run.sh` lies in the current directory and
not in the working directory `/work`. -/
def scriptWorld : World :=
  { Getwd := Except.ok "/home/u"
    Stat := scriptStat
    LookPath := LookPath scriptStat ["/usr/bin", "/bin"]
    Chdir := fun _ => none
    Glob := fun _ _ => ([], none)
    Spawn := scriptSpawn
    getwd_rooted := by
      intro cwd h
      cases h
      rfl }

/-- A command that names its executable relative to the current directory. -/
def scriptCommand : Command :=
  { LookupPath := false
    Executable := "./run.sh"
    WorkingDir := "/work"
    Input := []
    RlimitArgs := []
    Arguments := []
    Timeout := 0
    StdoutSize := 0
    StderrSize := 0 }

/-- A command that names its executable relative to the working directory. -/
def toolCommand : Command :=
  { scriptCommand with Executable := "tool.sh" }

/-! ## Theorems -/

/-! ### readFD -/

theorem goCopy_exact (dst src : List Byte) (h : dst.length = src.length) :
    goCopy dst src = src := by
  simp [goCopy, h]

theorem goCopy_short (dst src : List Byte) (h : dst.length ≤ src.length) :
    goCopy dst src = src.take dst.length := by
  simp [goCopy, Nat.min_eq_left h]

theorem readResult_eq (data : List Byte) (index : Nat) (h : index ≤ data.length) :
    readResult data index = data.take index := by
  unfold readResult
  rw [goCopy_short _ _ (by simpa using h)]
  simp

theorem copyAt_window (data src : List Byte) (index : Nat)
    (h : index + src.length ≤ data.length) :
    copyAt data index (index + src.length) src
      = data.take index ++ src ++ data.drop (index + src.length) := by
  unfold copyAt
  rw [goCopy_exact]
  simp
  omega

theorem copyAt_tail (data chunk stale : List Byte) (index : Nat)
    (hi : index ≤ data.length) (h : data.length < index + chunk.length) :
    copyAt data index data.length (chunk ++ stale)
      = data.take index ++ chunk.take (data.length - index) := by
  unfold copyAt
  rw [goCopy_short]
  · have h1 : ((data.drop index).take (data.length - index)).length = data.length - index := by
      simp
    rw [h1, List.take_append_of_le_length (by omega)]
    simp
  · simp
    omega

theorem delivered_cons (r : ReadResult) (rs : List ReadResult) :
    delivered (r :: rs) = r.chunk ++ delivered rs := by
  simp [delivered]

theorem delivered_append (xs ys : List ReadResult) :
    delivered (xs ++ ys) = delivered xs ++ delivered ys := by
  simp [delivered]

/-- One pass of the loop body for a read without error that fits: the chunk
is stored behind the bytes read so far and the loop goes on. -/
theorem readLoop_step (EOVER : GoError) (r : ReadResult) (rest : Reader)
    (data buffer : List Byte) (index : Nat)
    (herr : r.err = none) (hfit : index + r.chunk.length ≤ data.length) :
    readLoop EOVER (r :: rest) data index buffer
      = readLoop EOVER rest
          (data.take index ++ r.chunk ++ data.drop (index + r.chunk.length))
          (index + r.chunk.length) (r.chunk ++ buffer.drop r.chunk.length) := by
  simp only [readLoop, Read]
  have hno : ¬ (r.chunk.length > 0 ∧ index + r.chunk.length > data.length) := by omega
  rw [if_neg hno]
  simp only [herr, isStreamEnd]
  by_cases hn : r.chunk.length > 0
  · simp only [if_pos hn]
    have ht : (r.chunk ++ buffer.drop r.chunk.length).take r.chunk.length = r.chunk := by
      simp
    rw [ht, copyAt_window _ _ _ hfit]
    simp
  · have h0 : r.chunk = [] := by
      cases hc : r.chunk with
      | nil => rfl
      | cons a t => simp [hc] at hn
    simp [h0]

/-- The loop over a run of reads without error whose bytes all fit. -/
theorem readLoop_run (EOVER : GoError) (pre rest : Reader) :
    ∀ (data buffer : List Byte) (index : Nat),
      (∀ x ∈ pre, x.err = none) → (∀ x ∈ pre, x.chunk.length ≤ 1000) →
      index + (delivered pre).length ≤ data.length → buffer.length = 1000 →
      ∃ data1 buffer1, buffer1.length = 1000 ∧ data1.length = data.length ∧
        data1.take (index + (delivered pre).length) = data.take index ++ delivered pre ∧
        readLoop EOVER (pre ++ rest) data index buffer
          = readLoop EOVER rest data1 (index + (delivered pre).length) buffer1 := by
  induction pre with
  | nil =>
    intro data buffer index _ _ _ hb
    exact ⟨data, buffer, hb, rfl, by simp [delivered], by simp [delivered]⟩
  | cons r pre ih =>
    intro data buffer index herr hsz hfit hb
    rw [delivered_cons, List.length_append] at hfit
    have hr : r.err = none := herr r (by simp)
    have hrs : r.chunk.length ≤ 1000 := hsz r (by simp)
    have hstep := readLoop_step EOVER r (pre ++ rest) data buffer index hr (by omega)
    have hlen : (data.take index ++ r.chunk ++ data.drop (index + r.chunk.length)).length
        = data.length := by
      simp
      omega
    obtain ⟨data1, buffer1, hb1, hd1, htake, hloop⟩ :=
      ih (data.take index ++ r.chunk ++ data.drop (index + r.chunk.length))
        (r.chunk ++ buffer.drop r.chunk.length) (index + r.chunk.length)
        (fun x hx => herr x (by simp [hx])) (fun x hx => hsz x (by simp [hx]))
        (by rw [hlen]; omega) (by simp; omega)
    refine ⟨data1, buffer1, hb1, by rw [hd1, hlen], ?_, ?_⟩
    · rw [delivered_cons, List.length_append, ← Nat.add_assoc, htake]
      have hti : (data.take index).length = index := by
        simp
        omega
      have : (data.take index ++ r.chunk ++ data.drop (index + r.chunk.length)).take
          (index + r.chunk.length) = data.take index ++ r.chunk := by
        rw [List.take_append_of_le_length (by simp; omega)]
        rw [List.take_of_length_le (by simp)]
      rw [this]
      simp
    · rw [delivered_cons, List.length_append, ← Nat.add_assoc]
      rw [List.cons_append, hstep, hloop]

/-- C1: when the reads before the first read error push the byte count past
the cap, that is, the reads `pre` carry no error and fit and the next read `r`
does not fit, `readFD` returns the first `cap` bytes that the stream
delivered, a sequence of length exactly `cap` without any stale byte of the
read buffer, together with the overflow error `EOVER` it was called with
(`EOSTDOUT` for stdout and `EOSTDERR` for stderr in `Execute`). -/
theorem readFD_overflow (cap : Nat) (EOVER : GoError) (pre rest : Reader) (r : ReadResult)
    (hsz : ∀ x ∈ pre ++ r :: rest, x.chunk.length ≤ 1000)
    (herr : ∀ x ∈ pre, x.err = none)
    (hfit : (delivered pre).length ≤ cap)
    (hover : cap < (delivered pre).length + r.chunk.length) :
    readFD (pre ++ r :: rest) cap EOVER
        = some ((delivered (pre ++ r :: rest)).take cap, some EOVER) ∧
      ((delivered (pre ++ r :: rest)).take cap).length = cap := by
  have hlen : cap ≤ (delivered (pre ++ r :: rest)).length := by
    rw [delivered_append, delivered_cons]
    simp only [List.length_append]
    omega
  refine ⟨?_, by simp [List.length_take]; omega⟩
  obtain ⟨data1, buffer1, hb1, hd1, htake, hloop⟩ :=
    readLoop_run EOVER pre (r :: rest) (List.replicate cap 0) (List.replicate 1000 0) 0
      herr (fun x hx => hsz x (by simp [hx])) (by simpa using hfit) (List.length_replicate _ _)
  simp only [List.length_replicate, Nat.zero_add, List.take_zero, List.nil_append] at hd1 htake hloop
  unfold readFD
  rw [hloop]
  simp only [readLoop, Read]
  have hyes : r.chunk.length > 0 ∧ (delivered pre).length + r.chunk.length > data1.length := by
    omega
  rw [if_pos hyes, copyAt_tail _ _ _ _ (by omega) (by omega), hd1, htake]
  rw [delivered_append, delivered_cons, ← List.append_assoc, List.take_append_of_le_length
    (by simp only [List.length_append]; omega), List.take_append_eq_append_take,
    List.take_of_length_le hfit]

/-- C2: when the reads `pre` carry no error, the read `r` ends the loop with
the error `e`, and all bytes delivered up to and including `r` fit into the
cap, `readFD` returns exactly these bytes; the returned error is nil when `e`
is end-of-stream, closed-pipe or unexpected-end-of-stream, and is `e` itself
otherwise. -/
theorem readFD_within_cap (cap : Nat) (EOVER : GoError) (pre rest : Reader) (r : ReadResult)
    (e : GoError)
    (hsz : ∀ x ∈ pre ++ r :: rest, x.chunk.length ≤ 1000)
    (herr : ∀ x ∈ pre, x.err = none) (hend : r.err = some e)
    (hfit : (delivered (pre ++ [r])).length ≤ cap) :
    readFD (pre ++ r :: rest) cap EOVER
        = some (delivered (pre ++ [r]),
            if e = GoError.EOF ∨ e = GoError.ErrClosedPipe ∨ e = GoError.ErrUnexpectedEOF
            then none else some e) ∧
      (delivered (pre ++ [r])).length ≤ cap := by
  refine ⟨?_, hfit⟩
  have hone : delivered [r] = r.chunk := by simp [delivered]
  rw [delivered_append, hone, List.length_append] at hfit
  obtain ⟨data1, buffer1, hb1, hd1, htake, hloop⟩ :=
    readLoop_run EOVER pre (r :: rest) (List.replicate cap 0) (List.replicate 1000 0) 0
      herr (fun x hx => hsz x (by simp [hx])) (by rw [List.length_replicate]; omega)
      (List.length_replicate _ _)
  simp only [List.length_replicate, Nat.zero_add, List.take_zero, List.nil_append] at hd1 htake hloop
  unfold readFD
  rw [hloop]
  simp only [readLoop, Read]
  have hno : ¬ (r.chunk.length > 0 ∧ (delivered pre).length + r.chunk.length > data1.length) := by
    omega
  rw [if_neg hno]
  have hdata : (if r.chunk.length > 0 then
        copyAt data1 (delivered pre).length ((delivered pre).length + r.chunk.length)
          ((r.chunk ++ buffer1.drop r.chunk.length).take r.chunk.length)
      else data1)
      = data1.take (delivered pre).length ++ r.chunk
          ++ data1.drop ((delivered pre).length + r.chunk.length) := by
    by_cases hn : r.chunk.length > 0
    · rw [if_pos hn]
      have ht : (r.chunk ++ buffer1.drop r.chunk.length).take r.chunk.length = r.chunk := by
        simp
      rw [ht, copyAt_window _ _ _ (by omega)]
    · have h0 : r.chunk = [] := by
        cases hc : r.chunk with
        | nil => rfl
        | cons a t => simp [hc] at hn
      simp [h0]
  have hidx : (if r.chunk.length > 0 then (delivered pre).length + r.chunk.length
      else (delivered pre).length) = (delivered pre).length + r.chunk.length := by
    by_cases hn : r.chunk.length > 0
    · rw [if_pos hn]
    · rw [if_neg hn]; omega
  simp only [hdata, hidx]
  have hres : readResult (data1.take (delivered pre).length ++ r.chunk
        ++ data1.drop ((delivered pre).length + r.chunk.length))
      ((delivered pre).length + r.chunk.length) = delivered (pre ++ [r]) := by
    have hl : (data1.take (delivered pre).length).length = (delivered pre).length := by
      rw [htake]
    rw [readResult_eq _ _ (by simp only [List.length_append, List.length_drop, hl]; omega)]
    rw [List.take_append_of_le_length (by simp only [List.length_append, hl]; omega)]
    rw [List.take_of_length_le (by simp only [List.length_append, hl]; omega)]
    rw [htake, delivered_append, hone]
  rw [hres, hend]
  by_cases h1 : e = GoError.EOF ∨ e = GoError.ErrClosedPipe ∨ e = GoError.ErrUnexpectedEOF
  · rw [if_pos h1]
    have : isStreamEnd (some e) = true := by
      rcases h1 with h | h | h <;> subst h <;> rfl
    simp [this]
  · rw [if_neg h1]
    have : isStreamEnd (some e) = false := by
      simp only [not_or] at h1
      simp [isStreamEnd, h1]
    simp [this]

/-! ### The kill closure -/

theorem killAll_append (st : KillState) (xs ys : List KillCall) :
    killAll st (xs ++ ys) = killAll (killAll st xs) ys := by
  induction xs generalizing st with
  | nil => rfl
  | cons c xs ih => simp [killAll, ih]

theorem kill_of_killed (st : KillState) (reason : GoError) (o : SignalOutcome)
    (h : st.isKilled = true) : kill st reason o = (st, false) := by
  simp [kill, h]

theorem kill_of_not_killed (st : KillState) (reason : GoError) (o : SignalOutcome)
    (h : st.isKilled = false) :
    kill st reason o
      = (⟨decide (o = SignalOutcome.success), some reason⟩, true) := by
  cases o <;> simp [kill, h]

theorem killAll_of_killed (st : KillState) (xs : List KillCall) (h : st.isKilled = true) :
    killAll st xs = st := by
  induction xs with
  | nil => rfl
  | cons c xs ih => simp [killAll, kill_of_killed st _ _ h, ih]

theorem successfulSends_of_killed (st : KillState) (xs : List KillCall)
    (h : st.isKilled = true) : successfulSends st xs = 0 := by
  induction xs with
  | nil => rfl
  | cons c xs ih => simp [successfulSends, kill_of_killed st _ _ h, ih]

theorem successfulSends_le_one (st : KillState) (xs : List KillCall) :
    successfulSends st xs ≤ 1 := by
  induction xs generalizing st with
  | nil => simp [successfulSends]
  | cons c xs ih =>
    cases hk : st.isKilled with
    | true =>
      rw [successfulSends_of_killed st _ hk]
      omega
    | false =>
      simp only [successfulSends, kill_of_not_killed st _ _ hk]
      by_cases ho : c.outcome = SignalOutcome.success
      · rw [successfulSends_of_killed _ _ (by simp [ho])]
        simp [ho]
      · have := ih ⟨decide (c.outcome = SignalOutcome.success), some c.reason⟩
        simp [ho] at this ⊢
        exact this

theorem killAll_without_success (st : KillState) (xs : List KillCall)
    (h : st.isKilled = false) (hx : ∀ x ∈ xs, x.outcome ≠ SignalOutcome.success) :
    (killAll st xs).isKilled = false := by
  induction xs generalizing st with
  | nil => exact h
  | cons c xs ih =>
    simp only [killAll, kill_of_not_killed st _ _ h]
    apply ih
    · simp [hx c (by simp)]
    · intro x hm
      exact hx x (by simp [hm])

theorem killAll_killed_iff (xs : List KillCall) (st : KillState) (h : st.isKilled = false) :
    (killAll st xs).isKilled = true ↔ 0 < successfulSends st xs := by
  induction xs generalizing st with
  | nil => simp [killAll, successfulSends, h]
  | cons c xs ih =>
    simp only [killAll, successfulSends, kill_of_not_killed st _ _ h]
    by_cases ho : c.outcome = SignalOutcome.success
    · rw [killAll_of_killed _ _ (by simp [ho])]
      simp [ho]
    · rw [ih _ (by simp [ho])]
      simp [ho]

theorem killAll_firstSuccess (xs : List KillCall) (st : KillState) (h : st.isKilled = false) :
    (∀ c, firstSuccess xs = some c → killAll st xs = ⟨true, some c.reason⟩) ∧
    (firstSuccess xs = none → (killAll st xs).isKilled = false) := by
  induction xs generalizing st with
  | nil => simp [firstSuccess, killAll, h]
  | cons c xs ih =>
    simp only [killAll, firstSuccess, kill_of_not_killed st _ _ h]
    by_cases ho : c.outcome = SignalOutcome.success
    · rw [killAll_of_killed _ _ (by simp [ho])]
      simp [ho]
    · have := ih ⟨decide (c.outcome = SignalOutcome.success), some c.reason⟩ (by simp [ho])
      simpa [ho] using this

/-- C3: the kill guard is single-shot. For a sequence of calls
`pre ++ c :: post` in lock order: the call `c` sends a signal only while
`isKilled` is false; when `c` is the first call whose signal outcome is
success it finds `isKilled` false, sends, and leaves the state killed with its
own reason, every later call sends no signal and leaves that state as it is,
and so does the whole sequence; `isKilled` turns true at `c` only when `c`
is that first successful call; a call whose send fails leaves `isKilled`
false; and at most one signal send of the whole sequence succeeds. -/
theorem kill_single_shot (pre post : List KillCall) (c : KillCall) :
    ((kill (killAll KillState.init pre) c.reason c.outcome).2 = true →
        (killAll KillState.init pre).isKilled = false) ∧
    ((∀ x ∈ pre, x.outcome ≠ SignalOutcome.success) → c.outcome = SignalOutcome.success →
        (killAll KillState.init pre).isKilled = false ∧
        kill (killAll KillState.init pre) c.reason c.outcome = (⟨true, some c.reason⟩, true) ∧
        (∀ post1 post2 d, post = post1 ++ d :: post2 →
          kill (killAll KillState.init (pre ++ c :: post1)) d.reason d.outcome
            = (⟨true, some c.reason⟩, false)) ∧
        killAll KillState.init (pre ++ c :: post) = ⟨true, some c.reason⟩) ∧
    ((killAll KillState.init pre).isKilled = false →
        (kill (killAll KillState.init pre) c.reason c.outcome).1.isKilled = true →
        c.outcome = SignalOutcome.success ∧ ∀ x ∈ pre, x.outcome ≠ SignalOutcome.success) ∧
    ((kill (killAll KillState.init pre) c.reason c.outcome).2 = true →
        c.outcome ≠ SignalOutcome.success →
        (kill (killAll KillState.init pre) c.reason c.outcome).1.isKilled = false) ∧
    successfulSends KillState.init (pre ++ c :: post) ≤ 1 := by
  have hstate : ∀ post1, (∀ x ∈ pre, x.outcome ≠ SignalOutcome.success) →
      c.outcome = SignalOutcome.success →
      killAll KillState.init (pre ++ c :: post1) = ⟨true, some c.reason⟩ := by
    intro post1 hpre hc
    have hb := killAll_without_success KillState.init pre rfl hpre
    rw [killAll_append]
    simp only [killAll, kill_of_not_killed _ _ _ hb]
    rw [killAll_of_killed _ _ (by simp [hc])]
    simp [hc]
  refine ⟨?_, ?_, ?_, ?_, successfulSends_le_one _ _⟩
  · intro hsent
    cases hk : (killAll KillState.init pre).isKilled with
    | false => rfl
    | true => simp [kill_of_killed _ _ _ hk] at hsent
  · intro hpre hc
    have hb := killAll_without_success KillState.init pre rfl hpre
    refine ⟨hb, ?_, ?_, hstate post hpre hc⟩
    · simp [kill_of_not_killed _ _ _ hb, hc]
    · intro post1 post2 d _
      rw [hstate post1 hpre hc]
      exact kill_of_killed _ _ _ rfl
  · intro hb hafter
    rw [kill_of_not_killed _ _ _ hb] at hafter
    refine ⟨by simpa using hafter, ?_⟩
    intro x hx hxs
    obtain ⟨l1, l2, rfl⟩ := List.append_of_mem hx
    have hcontra : (killAll KillState.init (l1 ++ x :: l2)).isKilled = true := by
      rw [killAll_append]
      cases hk : (killAll KillState.init l1).isKilled with
      | true => rw [killAll_of_killed _ _ hk, hk]
      | false =>
        simp only [killAll, kill_of_not_killed _ _ _ hk]
        rw [killAll_of_killed _ _ (by simp [hxs])]
        simp [hxs]
    rw [hb] at hcontra
    exact absurd hcontra (by simp)
  · intro hsent hfail
    have hb : (killAll KillState.init pre).isKilled = false := by
      cases hk : (killAll KillState.init pre).isKilled with
      | false => rfl
      | true => simp [kill_of_killed _ _ _ hk] at hsent
    simp [kill_of_not_killed _ _ _ hb, hfail]

/-! ### Execute -/

theorem chooseError_eq_firstNonNil (a b c d : Option GoError) :
    chooseError a b c d = firstNonNil [a, b, c, d] := by
  cases a <;> cases b <;> cases c <;> cases d <;> simp [chooseError, firstNonNil]

theorem chooseError_eq_none_iff (a b c d : Option GoError) :
    chooseError a b c d = none ↔ a = none ∧ b = none ∧ c = none ∧ d = none := by
  cases a <;> cases b <;> cases c <;> cases d <;> simp [chooseError]

theorem Execute_of_prepare (w : World) (command c : Command) (p : Process)
    (h : prepare w command = Except.ok (c, p)) : Execute w command = runStarted c p := by
  simp [Execute, h]

/-- The result of a run whose two readers return: `Execute` returns, with
the fields as the result assembly sets them. -/
theorem runStarted_returns (c : Command) (p : Process) (so se : List Byte × Option GoError)
    (h0 : 0 ≤ c.StdoutSize) (h1 : 0 ≤ c.StderrSize)
    (hso : readFD p.stdout c.StdoutSize.toNat GoError.EOSTDOUT = some so)
    (hse : readFD p.stderr c.StderrSize.toNat GoError.EOSTDERR = some se) :
    runStarted c p = Outcome.returned
      { Stdout := so.1
        Stderr := se.1
        ExitCode := GetExitCode p.Wait
        Error := GetString (chooseError p.Wait (feedFD c.Input p.stdin) so.2 se.2)
        ModTime := p.Now
        Killed := (firstSuccess (killCalls c so.2 se.2 p.lockOrder)).isSome
        KillReason := match firstSuccess (killCalls c so.2 se.2 p.lockOrder) with
          | some call => call.reason.Error
          | none => "" }
      (chooseError p.Wait (feedFD c.Input p.stdin) so.2 se.2) := by
  obtain ⟨b1, e1⟩ := so
  obtain ⟨b2, e2⟩ := se
  have hneg : ¬ (c.StdoutSize < 0 ∨ c.StderrSize < 0) := by omega
  simp only [runStarted, if_neg hneg, hso, hse]
  have hk := killAll_firstSuccess (killCalls c e1 e2 p.lockOrder) KillState.init rfl
  cases hf : firstSuccess (killCalls c e1 e2 p.lockOrder) with
  | none =>
    have := hk.2 hf
    simp [assemble, this]
  | some call =>
    have := hk.1 call hf
    simp [assemble, this]

theorem firstSuccess_mem (xs : List KillCall) (call : KillCall)
    (h : firstSuccess xs = some call) : call ∈ xs ∧ call.outcome = SignalOutcome.success := by
  induction xs with
  | nil => simp [firstSuccess] at h
  | cons c xs ih =>
    simp only [firstSuccess] at h
    by_cases ho : c.outcome = SignalOutcome.success
    · rw [if_pos ho] at h
      cases h
      exact ⟨by simp, ho⟩
    · rw [if_neg ho] at h
      exact ⟨by simp [(ih h).1], (ih h).2⟩

theorem firstSuccess_isSome_iff (xs : List KillCall) :
    (firstSuccess xs).isSome = true ↔ 0 < successfulSends KillState.init xs := by
  rw [← killAll_killed_iff xs KillState.init rfl]
  have hk := killAll_firstSuccess xs KillState.init rfl
  cases hf : firstSuccess xs with
  | none => simp [hk.2 hf]
  | some call => simp [hk.1 call hf]

theorem killCalls_mem (c : Command) (so se : Option GoError)
    (order : List (Trigger × SignalOutcome)) (call : KillCall)
    (h : call ∈ killCalls c so se order) :
    (call.trigger = Trigger.stdout ∧ so = some call.reason) ∨
    (call.trigger = Trigger.stderr ∧ se = some call.reason) ∨
    (call.trigger = Trigger.timeout ∧ call.reason = GoError.ETIMEOUT ∧ c.Timeout > 0) := by
  induction order with
  | nil => simp [killCalls] at h
  | cons x rest ih =>
    obtain ⟨t, o⟩ := x
    cases t with
    | stdout =>
      cases so with
      | none => exact ih (by simpa [killCalls] using h)
      | some e =>
        simp only [killCalls, List.mem_cons] at h
        rcases h with h | h
        · subst h
          exact Or.inl ⟨rfl, rfl⟩
        · exact ih h
    | stderr =>
      cases se with
      | none => exact ih (by simpa [killCalls] using h)
      | some e =>
        simp only [killCalls, List.mem_cons] at h
        rcases h with h | h
        · subst h
          exact Or.inr (Or.inl ⟨rfl, rfl⟩)
        · exact ih h
    | timeout =>
      by_cases ht : c.Timeout > 0
      · simp only [killCalls, if_pos ht, List.mem_cons] at h
        rcases h with h | h
        · subst h
          exact Or.inr (Or.inr ⟨rfl, rfl, ht⟩)
        · exact ih h
      · simp only [killCalls, if_neg ht] at h
        exact ih h

theorem readLoop_error_origin (EOVER : GoError) (reader : Reader) :
    ∀ (data buffer : List Byte) (index : Nat) (bytes : List Byte) (e : GoError),
      readLoop EOVER reader data index buffer = some (bytes, some e) →
      e = EOVER ∨ ∃ r ∈ reader, r.err = some e := by
  induction reader with
  | nil =>
    intro data buffer index bytes e h
    simp [readLoop] at h
  | cons r rest ih =>
    intro data buffer index bytes e h
    simp only [readLoop, Read] at h
    split at h
    · simp only [Option.some.injEq, Prod.mk.injEq] at h
      exact Or.inl h.2.symm
    · split at h
      · simp at h
      · split at h
        · simp only [Option.some.injEq, Prod.mk.injEq] at h
          exact Or.inr ⟨r, by simp, h.2⟩
        · rcases ih _ _ _ _ _ h with h1 | ⟨x, hx, hxe⟩
          · exact Or.inl h1
          · exact Or.inr ⟨x, by simp [hx], hxe⟩

/-- The error that `readFD` returns has a text when the overflow error and
the errors of the reader have one. -/
theorem readFD_hasText (reader : Reader) (cap : Nat) (EOVER : GoError)
    (so : List Byte × Option GoError)
    (hover : hasText (some EOVER) = true) (hreads : ∀ r ∈ reader, hasText r.err = true)
    (h : readFD reader cap EOVER = some so) : hasText so.2 = true := by
  obtain ⟨bytes, err⟩ := so
  cases err with
  | none => rfl
  | some e =>
    rcases readLoop_error_origin EOVER reader _ _ _ _ _ h with h1 | ⟨r, hr, hre⟩
    · rw [h1]
      exact hover
    · have := hreads r hr
      rw [hre] at this
      exact this

theorem GetString_eq_empty_iff (err : Option GoError) (h : hasText err = true) :
    GetString err = "" ↔ err = none := by
  cases err with
  | none => simp [GetString]
  | some e => simpa [GetString, hasText] using h

theorem chooseError_hasText (a b c d : Option GoError) (ha : hasText a = true)
    (hb : hasText b = true) (hc : hasText c = true) (hd : hasText d = true) :
    hasText (chooseError a b c d) = true := by
  cases a <;> cases b <;> cases c <;> cases d <;> simp_all [chooseError]

theorem killCalls_hasText (c : Command) (so se : Option GoError)
    (order : List (Trigger × SignalOutcome)) (call : KillCall)
    (hso : hasText so = true) (hse : hasText se = true)
    (h : call ∈ killCalls c so se order) : call.reason.Error ≠ "" := by
  rcases killCalls_mem c so se order call h with h1 | h1 | h1
  · rw [h1.2] at hso
    simpa [hasText] using hso
  · rw [h1.2] at hse
    simpa [hasText] using hse
  · rw [h1.2.1]
    decide

/-- C4: when the process is started and both readers return, `Execute`
returns a result together with the first non-nil error in the order
process-exit error, stdin-feed error, stdout error, stderr error; that error
is nil exactly when all four are nil; the `Error` field is the text of that
error, it is empty when all four are nil, and, the errors of the operating
system having a text, it is empty exactly when all four are nil. -/
theorem Execute_error_priority (w : World) (command c : Command) (p : Process)
    (so se : List Byte × Option GoError)
    (hprep : prepare w command = Except.ok (c, p))
    (h0 : 0 ≤ c.StdoutSize) (h1 : 0 ≤ c.StderrSize)
    (hso : readFD p.stdout c.StdoutSize.toNat GoError.EOSTDOUT = some so)
    (hse : readFD p.stderr c.StderrSize.toNat GoError.EOSTDERR = some se) :
    ∃ result,
      Execute w command = Outcome.returned result
        (firstNonNil [p.Wait, feedFD c.Input p.stdin, so.2, se.2]) ∧
      result.Error = GetString (firstNonNil [p.Wait, feedFD c.Input p.stdin, so.2, se.2]) ∧
      (firstNonNil [p.Wait, feedFD c.Input p.stdin, so.2, se.2] = none ↔
        p.Wait = none ∧ feedFD c.Input p.stdin = none ∧ so.2 = none ∧ se.2 = none) ∧
      (p.Wait = none ∧ feedFD c.Input p.stdin = none ∧ so.2 = none ∧ se.2 = none →
        result.Error = "") ∧
      (hasText p.Wait = true → hasText (feedFD c.Input p.stdin) = true →
        (∀ r ∈ p.stdout, hasText r.err = true) → (∀ r ∈ p.stderr, hasText r.err = true) →
        (result.Error = "" ↔
          p.Wait = none ∧ feedFD c.Input p.stdin = none ∧ so.2 = none ∧ se.2 = none)) := by
  rw [Execute_of_prepare w command c p hprep, runStarted_returns c p so se h0 h1 hso hse,
    ← chooseError_eq_firstNonNil]
  refine ⟨_, rfl, rfl, chooseError_eq_none_iff _ _ _ _, ?_, ?_⟩
  · intro h
    rw [(chooseError_eq_none_iff _ _ _ _).2 h]
    rfl
  · intro hw hi hro hre
    have hto := readFD_hasText _ _ _ so (by decide) hro hso
    have hte := readFD_hasText _ _ _ se (by decide) hre hse
    show GetString (chooseError p.Wait (feedFD c.Input p.stdin) so.2 se.2) = "" ↔ _
    rw [GetString_eq_empty_iff _ (chooseError_hasText _ _ _ _ hw hi hto hte)]
    exact chooseError_eq_none_iff _ _ _ _

/-- C5, amended: when the kill completed, `call` being the first call of
`kill` whose signal send succeeded, `Execute` returns a result with
`Killed = true` and with the text of the triggering error as `KillReason`.
The returned error, whose text is the `Error` field, is the first non-nil
one of process-exit error, stdin-feed error, stdout error and stderr error:
for a kill by the stdout reader it is the triggering error when the
process-exit and stdin-feed errors are nil, for a kill by the stderr reader
when the stdout error is nil as well, and a kill by the timer, whose reason
is the timeout error, adds no candidate. -/
theorem Execute_killed_reports (w : World) (command c : Command) (p : Process)
    (so se : List Byte × Option GoError) (call : KillCall)
    (hprep : prepare w command = Except.ok (c, p))
    (h0 : 0 ≤ c.StdoutSize) (h1 : 0 ≤ c.StderrSize)
    (hso : readFD p.stdout c.StdoutSize.toNat GoError.EOSTDOUT = some so)
    (hse : readFD p.stderr c.StderrSize.toNat GoError.EOSTDERR = some se)
    (hwin : firstSuccess (killCalls c so.2 se.2 p.lockOrder) = some call) :
    ∃ result err,
      Execute w command = Outcome.returned result err ∧
      result.Killed = true ∧ result.KillReason = call.reason.Error ∧
      err = firstNonNil [p.Wait, feedFD c.Input p.stdin, so.2, se.2] ∧
      result.Error = GetString err ∧
      (call.trigger = Trigger.stdout → so.2 = some call.reason ∧
        (p.Wait = none → feedFD c.Input p.stdin = none → err = some call.reason)) ∧
      (call.trigger = Trigger.stderr → se.2 = some call.reason ∧
        (p.Wait = none → feedFD c.Input p.stdin = none → so.2 = none →
          err = some call.reason)) ∧
      (call.trigger = Trigger.timeout → call.reason = GoError.ETIMEOUT) := by
  rw [Execute_of_prepare w command c p hprep, runStarted_returns c p so se h0 h1 hso hse,
    ← chooseError_eq_firstNonNil]
  have hmem := killCalls_mem c so.2 se.2 p.lockOrder call (firstSuccess_mem _ _ hwin).1
  refine ⟨_, _, rfl, by simp [hwin], by simp [hwin], rfl, rfl, ?_, ?_, ?_⟩
  · intro ht
    rcases hmem with h | h | h
    · refine ⟨h.2, ?_⟩
      intro hw hi
      simp [chooseError, hw, hi, h.2]
    · rw [ht] at h
      exact absurd h.1 (by decide)
    · rw [ht] at h
      exact absurd h.1 (by decide)
  · intro ht
    rcases hmem with h | h | h
    · rw [ht] at h
      exact absurd h.1 (by decide)
    · refine ⟨h.2, ?_⟩
      intro hw hi ho
      simp [chooseError, hw, hi, ho, h.2]
    · rw [ht] at h
      exact absurd h.1 (by decide)
  · intro ht
    rcases hmem with h | h | h
    · rw [ht] at h
      exact absurd h.1 (by decide)
    · rw [ht] at h
      exact absurd h.1 (by decide)
    · exact h.2.1

/-- C6: when the process is started and both readers return, the errors of
the two pipes having a text as all errors of the operating system do,
`Execute` returns a result in which `KillReason` is non-empty if and only if
`Killed` is true, and `Killed` is true if and only if the signal send of some
call of `kill` succeeded; with `Killed` true, `KillReason` is the text of the
reason of the call whose send succeeded, be it the timeout error, an overflow
error or the error that a reader returned. -/
theorem Execute_kill_metadata (w : World) (command c : Command) (p : Process)
    (so se : List Byte × Option GoError)
    (hprep : prepare w command = Except.ok (c, p))
    (h0 : 0 ≤ c.StdoutSize) (h1 : 0 ≤ c.StderrSize)
    (hso : readFD p.stdout c.StdoutSize.toNat GoError.EOSTDOUT = some so)
    (hse : readFD p.stderr c.StderrSize.toNat GoError.EOSTDERR = some se)
    (hro : ∀ r ∈ p.stdout, hasText r.err = true)
    (hre : ∀ r ∈ p.stderr, hasText r.err = true) :
    ∃ result err,
      Execute w command = Outcome.returned result err ∧
      (result.KillReason ≠ "" ↔ result.Killed = true) ∧
      (result.Killed = true ↔
        0 < successfulSends KillState.init (killCalls c so.2 se.2 p.lockOrder)) ∧
      (result.Killed = true →
        ∃ call, firstSuccess (killCalls c so.2 se.2 p.lockOrder) = some call ∧
          result.KillReason = call.reason.Error) := by
  have hto := readFD_hasText _ _ _ so (by decide) hro hso
  have hte := readFD_hasText _ _ _ se (by decide) hre hse
  rw [Execute_of_prepare w command c p hprep, runStarted_returns c p so se h0 h1 hso hse]
  refine ⟨_, _, rfl, ?_, firstSuccess_isSome_iff _, ?_⟩
  · cases hf : firstSuccess (killCalls c so.2 se.2 p.lockOrder) with
    | none => simp
    | some call =>
      have hne := killCalls_hasText c so.2 se.2 p.lockOrder call hto hte
        (firstSuccess_mem _ _ hf).1
      simpa using hne
  · cases hf : firstSuccess (killCalls c so.2 se.2 p.lockOrder) with
    | none => simp
    | some call =>
      intro _
      exact ⟨call, rfl, rfl⟩

/-! ### Command.verify -/

theorem IsAbs_iff (path : String) : IsAbs path = true ↔ path.data.head? = some '/' := by
  simp [IsAbs]

theorem Clean_rooted (path : String) (h : IsAbs path = true) : IsAbs (Clean path) = true := by
  have hne : path ≠ "" := by
    intro he
    rw [he] at h
    exact absurd h (by decide)
  simp only [Clean, if_neg hne, h, if_true]
  simp [IsAbs]

theorem Join_rooted (a b : String) (h : IsAbs a = true) : IsAbs (Join a b) = true := by
  have hne : a ≠ "" := by
    intro he
    rw [he] at h
    exact absurd h (by decide)
  simp only [Join, if_pos hne]
  apply Clean_rooted
  rw [IsAbs_iff] at h ⊢
  cases hd : a.data with
  | nil => simp [hd] at h
  | cons x xs =>
    rw [hd] at h
    simp [String.data_append, hd] at h ⊢
    exact h

theorem resolveExecutable_ok (w : World) (c1 c2 : Command)
    (hwd : IsAbs c1.WorkingDir = true) (h : resolveExecutable w c1 = Except.ok c2) :
    c2.WorkingDir = c1.WorkingDir ∧ c2.Arguments = c1.Arguments ∧
    c2.RlimitArgs = c1.RlimitArgs ∧
    (IsAbs c2.Executable = true ∨
      (IsAbs c1.Executable = false ∧ w.LookPath c1.Executable = Except.ok c2.Executable)) := by
  unfold resolveExecutable at h
  cases habs : IsAbs c1.Executable with
  | true =>
    simp [habs] at h
    subst h
    exact ⟨rfl, rfl, rfl, Or.inl habs⟩
  | false =>
    simp only [habs, Bool.not_false, if_true] at h
    cases hst : w.Stat (Join c1.WorkingDir c1.Executable) with
    | ok f =>
      simp only [hst] at h
      cases h
      exact ⟨rfl, rfl, rfl, Or.inl (Join_rooted _ _ hwd)⟩
    | error err =>
      simp only [hst] at h
      cases hne : IsNotExist (some err) with
      | false => simp [hne] at h
      | true =>
        simp only [hne, if_true] at h
        cases hlp : w.LookPath c1.Executable with
        | error e => simp [hlp] at h
        | ok path =>
          simp only [hlp] at h
          cases h
          exact ⟨rfl, rfl, rfl, Or.inr ⟨rfl, rfl⟩⟩

theorem checkPaths_ok (w : World) (c : Command) (u : Unit)
    (h : checkPaths w c = Except.ok u) :
    (∃ f, w.Stat c.Executable = Except.ok f ∧ f.IsDir = false ∧ f.Mode &&& 0o111 ≠ 0) ∧
    (∃ g, w.Stat c.WorkingDir = Except.ok g ∧ g.IsDir = true) := by
  unfold checkPaths at h
  cases hst : w.Stat c.Executable with
  | error err => simp [hst] at h
  | ok f =>
    simp only [hst] at h
    cases hd : f.IsDir with
    | true => simp [hd] at h
    | false =>
      simp only [hd, Bool.false_eq_true, if_false] at h
      by_cases hm : f.Mode &&& 0o111 = 0
      · simp [hm] at h
      · simp only [if_neg hm] at h
        refine ⟨⟨f, rfl, hd, hm⟩, ?_⟩
        cases hsw : w.Stat c.WorkingDir with
        | error err =>
          simp only [hsw] at h
          cases hne : IsNotExist (some err) <;> simp [hne] at h
        | ok g =>
          simp only [hsw] at h
          cases hg : g.IsDir with
          | true => exact ⟨g, rfl, hg⟩
          | false => simp [hg] at h

/-- The steps that a successful `verify` has gone through. -/
theorem verify_ok (w : World) (c v : Command) (h : Command.verify w c = Except.ok v) :
    ∃ cwd c2, w.Getwd = Except.ok cwd ∧
      resolveExecutable w (resolveWorkingDir cwd c) = Except.ok c2 ∧
      checkPaths w c2 = Except.ok () ∧ w.Chdir c2.WorkingDir = none ∧
      v = { c2 with Arguments := globArguments w c2.WorkingDir c2.Arguments [] } := by
  unfold Command.verify at h
  cases hg : w.Getwd with
  | error err => simp [hg] at h
  | ok cwd =>
    rw [hg] at h
    cases hr : resolveExecutable w (resolveWorkingDir cwd c) with
    | error err => simp [hr] at h
    | ok c2 =>
      simp only [hr] at h
      cases hc : checkPaths w c2 with
      | error err => simp [hc] at h
      | ok u =>
        simp only [hc] at h
        cases hd : w.Chdir c2.WorkingDir with
        | some err => simp [hd] at h
        | none =>
          simp only [hd] at h
          cases h
          exact ⟨cwd, c2, rfl, hr, hc, hd, rfl⟩

theorem resolveWorkingDir_rooted (w : World) (cwd : String) (c : Command)
    (hg : w.Getwd = Except.ok cwd) : IsAbs (resolveWorkingDir cwd c).WorkingDir = true := by
  unfold resolveWorkingDir
  cases ha : IsAbs c.WorkingDir with
  | true => simp [ha]
  | false => simpa [ha] using Join_rooted cwd c.WorkingDir (w.getwd_rooted cwd hg)

theorem resolveWorkingDir_fields (cwd : String) (c : Command) :
    (resolveWorkingDir cwd c).Executable = c.Executable ∧
    (resolveWorkingDir cwd c).Arguments = c.Arguments ∧
    (resolveWorkingDir cwd c).RlimitArgs = c.RlimitArgs := by
  unfold resolveWorkingDir
  cases ha : IsAbs c.WorkingDir <;> simp

theorem globArguments_eq (w : World) (dir : String) (xs acc : List String) :
    globArguments w dir xs acc = acc ++ xs.flatMap (argumentBlock w dir) := by
  induction xs generalizing acc with
  | nil => simp [globArguments]
  | cons x xs ih =>
    simp only [globArguments, List.flatMap_cons, argumentBlock]
    cases hm : (w.Glob dir x).1 with
    | nil => simp [ih]
    | cons y ys => simp [ih]

theorem verify_Arguments_eq (w : World) (c v : Command) (h : Command.verify w c = Except.ok v) :
    v.Arguments = c.Arguments.flatMap (argumentBlock w v.WorkingDir) := by
  obtain ⟨cwd, c2, hg, hr, hc, hd, rfl⟩ := verify_ok w c v h
  have hres := resolveExecutable_ok w _ c2 (resolveWorkingDir_rooted w cwd c hg) hr
  simp only [globArguments_eq, List.nil_append]
  rw [hres.2.1, (resolveWorkingDir_fields cwd c).2.1]

/-- What a successful `verify` does establish: `WorkingDir` is an absolute
path that `os.Stat` reports as an existing directory, and `Executable` is a
path that `os.Stat` reports as existing, not a directory and with an execute
permission bit set; `Executable` is absolute, or it is the path, as returned,
that the PATH lookup found for the relative name given. -/
theorem verify_postcondition (w : World) (c v : Command) (h : Command.verify w c = Except.ok v) :
    IsAbs v.WorkingDir = true ∧
    (∃ g, w.Stat v.WorkingDir = Except.ok g ∧ g.IsDir = true) ∧
    (∃ f, w.Stat v.Executable = Except.ok f ∧ f.IsDir = false ∧ f.Mode &&& 0o111 ≠ 0) ∧
    (IsAbs v.Executable = true ∨
      (IsAbs c.Executable = false ∧ w.LookPath c.Executable = Except.ok v.Executable)) := by
  obtain ⟨cwd, c2, hg, hr, hc, hd, rfl⟩ := verify_ok w c v h
  have hwd := resolveWorkingDir_rooted w cwd c hg
  have hres := resolveExecutable_ok w _ c2 hwd hr
  have hchk := checkPaths_ok w c2 () hc
  refine ⟨?_, hchk.2, hchk.1, ?_⟩
  · show IsAbs c2.WorkingDir = true
    rw [hres.1]
    exact hwd
  · show IsAbs c2.Executable = true ∨ _
    rcases hres.2.2.2 with h1 | h1
    · exact Or.inl h1
    · right
      rw [(resolveWorkingDir_fields cwd c).1] at h1
      exact h1

/-- C8: when `verify` returns no error, the new argument list is the
concatenation, in the order of the original arguments, of one block per
argument: the matcher's result, in the matcher's order, when it has one or
more paths, and the single literal argument otherwise. The matcher runs in
the verified working directory. -/
theorem verify_expands_arguments (w : World) (c v : Command)
    (h : Command.verify w c = Except.ok v) :
    v.Arguments = (c.Arguments.map (fun arg =>
      if (w.Glob v.WorkingDir arg).1.length ≥ 1 then (w.Glob v.WorkingDir arg).1
      else [arg])).flatten := by
  rw [verify_Arguments_eq w c v h, List.flatMap_def]
  congr 1
  apply List.map_congr_left
  intro arg _
  unfold argumentBlock
  cases hm : (w.Glob v.WorkingDir arg).1 <;> simp

/-! ### The limiter rewriting -/

theorem applyDefaults_fields (c : Command) :
    (applyDefaults c).Executable = c.Executable ∧ (applyDefaults c).WorkingDir = c.WorkingDir ∧
    (applyDefaults c).Arguments = c.Arguments := by
  unfold applyDefaults
  by_cases h1 : c.StdoutSize = 0 <;> by_cases h2 : c.StderrSize = 0 <;> simp [h1, h2]

theorem prepare_ok (w : World) (command c : Command) (p : Process)
    (h : prepare w command = Except.ok (c, p)) :
    ∃ v, Command.verify w command = Except.ok v ∧ c = applyDefaults (rlimitRewrite v) ∧
      p = w.Spawn c.Executable c.Arguments c.WorkingDir := by
  unfold prepare at h
  cases hv : Command.verify w command with
  | error err => simp [hv] at h
  | ok v =>
    simp only [hv] at h
    split at h
    · simp at h
    · split at h
      · simp at h
      · split at h
        · simp at h
        · split at h
          · simp at h
          · simp only [Except.ok.injEq, Prod.mk.injEq] at h
            refine ⟨v, rfl, h.1.symm, ?_⟩
            rw [← h.1, ← h.2]

theorem prepare_of_started (w : World) (command v : Command)
    (hv : Command.verify w command = Except.ok v)
    (hs : (w.Spawn (applyDefaults (rlimitRewrite v)).Executable
      (applyDefaults (rlimitRewrite v)).Arguments
      (applyDefaults (rlimitRewrite v)).WorkingDir).started = true) :
    prepare w command = Except.ok (applyDefaults (rlimitRewrite v),
      w.Spawn (applyDefaults (rlimitRewrite v)).Executable
        (applyDefaults (rlimitRewrite v)).Arguments
        (applyDefaults (rlimitRewrite v)).WorkingDir) := by
  simp only [Process.started, Bool.and_eq_true, Option.isNone_iff_eq_none] at hs
  obtain ⟨⟨⟨h1, h2⟩, h3⟩, h4⟩ := hs
  simp only [prepare, hv, h1, h2, h3, h4]

/-- C9: for a verified command `v` whose `RlimitArgs` is non-empty the
rewriting gives the argument list `RlimitArgs` followed by the five tokens
`-wdir`, the verified `WorkingDir`, `-executable`, the verified `Executable`,
`--`, followed by the arguments of `v`, which are the glob-expanded original
ones, in their order; `Executable` becomes `./rlimiter` and `WorkingDir`
becomes `.`; with an empty `RlimitArgs` the command is left as it is. The
process is started with the executable, the argument list and the working
directory of the rewritten command: when its pipes open and it starts,
`Execute` goes on with that process, and it goes on with no other. -/
theorem rlimit_rewrite (w : World) (command v : Command)
    (hv : Command.verify w command = Except.ok v) :
    (v.RlimitArgs ≠ [] →
      (rlimitRewrite v).Arguments
          = v.RlimitArgs ++ ["-wdir", v.WorkingDir, "-executable", v.Executable, "--"]
            ++ v.Arguments ∧
      (rlimitRewrite v).Executable = "./rlimiter" ∧ (rlimitRewrite v).WorkingDir = ".") ∧
    (v.RlimitArgs = [] → rlimitRewrite v = v) ∧
    v.Arguments = command.Arguments.flatMap (argumentBlock w v.WorkingDir) ∧
    (∀ c p, prepare w command = Except.ok (c, p) →
      c.Executable = (rlimitRewrite v).Executable ∧
      c.Arguments = (rlimitRewrite v).Arguments ∧
      c.WorkingDir = (rlimitRewrite v).WorkingDir ∧
      p = w.Spawn (rlimitRewrite v).Executable (rlimitRewrite v).Arguments
        (rlimitRewrite v).WorkingDir) ∧
    (v.RlimitArgs ≠ [] →
      (w.Spawn "./rlimiter"
        (v.RlimitArgs ++ ["-wdir", v.WorkingDir, "-executable", v.Executable, "--"]
          ++ v.Arguments) ".").started = true →
      prepare w command = Except.ok (applyDefaults (rlimitRewrite v),
        w.Spawn "./rlimiter"
          (v.RlimitArgs ++ ["-wdir", v.WorkingDir, "-executable", v.Executable, "--"]
            ++ v.Arguments) ".")) ∧
    (v.RlimitArgs = [] →
      (w.Spawn v.Executable v.Arguments v.WorkingDir).started = true →
      prepare w command
        = Except.ok (applyDefaults v, w.Spawn v.Executable v.Arguments v.WorkingDir)) := by
  have hrw : v.RlimitArgs ≠ [] →
      (rlimitRewrite v).Arguments
          = v.RlimitArgs ++ ["-wdir", v.WorkingDir, "-executable", v.Executable, "--"]
            ++ v.Arguments ∧
      (rlimitRewrite v).Executable = "./rlimiter" ∧ (rlimitRewrite v).WorkingDir = "." := by
    intro hne
    have hpos : v.RlimitArgs.length > 0 := List.length_pos.2 hne
    simp [rlimitRewrite, hpos, StringSlicesJoin]
  have hid : v.RlimitArgs = [] → rlimitRewrite v = v := by
    intro he
    simp [rlimitRewrite, he]
  have hf := applyDefaults_fields (rlimitRewrite v)
  refine ⟨hrw, hid, verify_Arguments_eq w command v hv, ?_, ?_, ?_⟩
  · intro c p hp
    obtain ⟨v1, hv1, hc, hpq⟩ := prepare_ok w command c p hp
    rw [hv] at hv1
    cases hv1
    rw [← hc] at hf
    refine ⟨hf.1, hf.2.2, hf.2.1, ?_⟩
    rw [← hf.1, ← hf.2.1, ← hf.2.2]
    exact hpq
  · intro hne hs
    have h := prepare_of_started w command v hv
    rw [hf.1, hf.2.1, hf.2.2, (hrw hne).1, (hrw hne).2.1, (hrw hne).2.2] at h
    exact h hs
  · intro he hs
    have h := prepare_of_started w command v hv
    rw [hid he] at h
    have hfv := applyDefaults_fields v
    rw [hfv.1, hfv.2.1, hfv.2.2] at h
    exact h hs

/-! ### formatOutput -/

theorem tokenizerLoop_plain (s : List Byte) (rest : List Byte) (i j : Nat)
    (out : List (List Byte)) (h : ∀ b ∈ rest, isControl b = false) :
    tokenizerLoop s rest i j out = out ++ [s.drop i] := by
  induction rest generalizing j with
  | nil => rfl
  | cons r rest ih =>
    simp only [tokenizerLoop, h r (by simp), Bool.false_eq_true, if_false]
    exact ih (j + 1) (fun b hb => h b (by simp [hb]))

/-- A string without control and delete bytes is returned unchanged. -/
theorem formatOutput_plain (s : List Byte) (h : ∀ b ∈ s, isControl b = false) :
    formatOutput s = s := by
  simp [formatOutput, tokenizer, tokenizerLoop_plain s s 0 0 [] h]

/-- C10: `formatOutput` is not the byte-wise reference escape. On the two
bytes `A` and line feed the reference gives `A\x0a` and `formatOutput` gives
`\x0a`: the tokenizer sends the text before a control byte only when it is
longer than one byte, so the single byte `A` is dropped. The instance of the
specification, the byte 0x07 followed by `AB`, gives `\x07AB` in both. -/
theorem formatOutput_drops_single_byte :
    formatOutput [65, 10] = [92, 120, 48, 97] ∧
    referenceEscape [65, 10] = [65, 92, 120, 48, 97] ∧
    formatOutput [65, 10] ≠ referenceEscape [65, 10] ∧
    formatOutput [7, 65, 66] = [92, 120, 48, 55, 65, 66] ∧
    referenceEscape [7, 65, 66] = [92, 120, 48, 55, 65, 66] ∧
    ¬ (∀ s, formatOutput s = referenceEscape s) := by
  refine ⟨by decide, by decide, by decide, by decide, by decide, ?_⟩
  intro h
  exact absurd (h [65, 10]) (by decide)

/-! ### Instances -/

/-- Witness of C1: a cap of three bytes and a stream of four bytes in two
chunks. -/
theorem readFD_overflow_witness :
    readFD ([⟨[1, 2], none⟩] ++ ⟨[3, 4], none⟩ :: [⟨[], some GoError.EOF⟩]) 3 GoError.EOSTDOUT
        = some ((delivered ([⟨[1, 2], none⟩] ++ ⟨[3, 4], none⟩ :: [⟨[], some GoError.EOF⟩])).take 3,
            some GoError.EOSTDOUT) ∧
      ((delivered ([⟨[1, 2], none⟩] ++ ⟨[3, 4], none⟩ :: [⟨[], some GoError.EOF⟩])).take 3).length
        = 3 :=
  readFD_overflow 3 GoError.EOSTDOUT [⟨[1, 2], none⟩] [⟨[], some GoError.EOF⟩] ⟨[3, 4], none⟩
    (by decide) (by decide) (by decide) (by decide)

/-- Witness of C2: four bytes in two chunks, the second with an error of the
pipe, under a cap of five bytes. -/
theorem readFD_within_cap_witness :
    readFD ([⟨[1, 2], none⟩] ++ ⟨[3, 4], some (GoError.other "read |0: input/output error")⟩
          :: [⟨[5], some GoError.EOF⟩]) 5 GoError.EOSTDERR
        = some (delivered ([⟨[1, 2], none⟩]
              ++ [⟨[3, 4], some (GoError.other "read |0: input/output error")⟩]),
            if GoError.other "read |0: input/output error" = GoError.EOF ∨
                GoError.other "read |0: input/output error" = GoError.ErrClosedPipe ∨
                GoError.other "read |0: input/output error" = GoError.ErrUnexpectedEOF
            then none else some (GoError.other "read |0: input/output error")) ∧
      (delivered ([⟨[1, 2], none⟩]
        ++ [⟨[3, 4], some (GoError.other "read |0: input/output error")⟩])).length ≤ 5 :=
  readFD_within_cap 5 GoError.EOSTDERR [⟨[1, 2], none⟩] [⟨[5], some GoError.EOF⟩]
    ⟨[3, 4], some (GoError.other "read |0: input/output error")⟩
    (GoError.other "read |0: input/output error")
    (by decide) (by decide) rfl (by decide)

/-- Witness of C3: in `sampleCalls` the timer is the first call whose send
succeeds; the state ends killed with the timeout error as reason and one
successful send. -/
theorem kill_single_shot_witness :
    killAll KillState.init sampleCalls = ⟨true, some GoError.ETIMEOUT⟩ ∧
    successfulSends KillState.init sampleCalls ≤ 1 :=
  ⟨((kill_single_shot [⟨Trigger.stderr, GoError.EOSTDERR, SignalOutcome.noSuchProcess⟩]
      [⟨Trigger.stdout, GoError.EOSTDOUT, SignalOutcome.success⟩]
      ⟨Trigger.timeout, GoError.ETIMEOUT, SignalOutcome.success⟩).2.1
      (by decide) rfl).2.2.2,
   (kill_single_shot [⟨Trigger.stderr, GoError.EOSTDERR, SignalOutcome.noSuchProcess⟩]
      [⟨Trigger.stdout, GoError.EOSTDOUT, SignalOutcome.success⟩]
      ⟨Trigger.timeout, GoError.ETIMEOUT, SignalOutcome.success⟩).2.2.2.2⟩

set_option maxRecDepth 100000 in
/-- Witness of C4: the run of `sampleCommand` with the flooding child. The
process-exit error comes first, and the `Error` field is not empty. -/
theorem Execute_error_priority_witness :
    ∃ result,
      Execute (sampleWorld floodProcess) sampleCommand = Outcome.returned result
        (firstNonNil [floodProcess.Wait, feedFD sampleVerified.Input floodProcess.stdin,
          some GoError.EOSTDOUT, none]) ∧
      result.Error = GetString (firstNonNil [floodProcess.Wait,
        feedFD sampleVerified.Input floodProcess.stdin, some GoError.EOSTDOUT, none]) ∧
      (firstNonNil [floodProcess.Wait, feedFD sampleVerified.Input floodProcess.stdin,
          some GoError.EOSTDOUT, none] = none ↔
        floodProcess.Wait = none ∧ feedFD sampleVerified.Input floodProcess.stdin = none ∧
          some GoError.EOSTDOUT = none ∧ (none : Option GoError) = none) ∧
      (result.Error = "" ↔
        floodProcess.Wait = none ∧ feedFD sampleVerified.Input floodProcess.stdin = none ∧
          some GoError.EOSTDOUT = none ∧ (none : Option GoError) = none) := by
  obtain ⟨result, h1, h2, h3, _, h5⟩ :=
    Execute_error_priority (sampleWorld floodProcess) sampleCommand sampleVerified floodProcess
      ([120, 121], some GoError.EOSTDOUT) ([], none) rfl (by decide) (by decide)
      (by decide) (by decide)
  exact ⟨result, h1, h2, h3, h5 (by decide) (by decide) (by decide) (by decide)⟩

set_option maxRecDepth 100000 in
/-- Counterexample to C5: the child killed for its stdout overflow and the
child killed by the timer both end with the process-exit error of a killed
process as the returned error and as `Error`; the triggering error is in
`KillReason` only. -/
theorem Execute_killed_error_counterexample :
    (Execute (sampleWorld floodProcess) sampleCommand = Outcome.returned
        { Stdout := [120, 121]
          Stderr := []
          ExitCode := -1
          Error := "signal: killed"
          ModTime := 0
          Killed := true
          KillReason := "stdout overflow" }
        (some (GoError.ExitError (-1) "signal: killed")) ∧
      some (GoError.ExitError (-1) "signal: killed") ≠ some GoError.EOSTDOUT ∧
      "signal: killed" ≠ GoError.EOSTDOUT.Error) ∧
    (Execute (sampleWorld sleepProcess) sampleCommand = Outcome.returned
        { Stdout := []
          Stderr := []
          ExitCode := -1
          Error := "signal: killed"
          ModTime := 0
          Killed := true
          KillReason := "timeout reached" }
        (some (GoError.ExitError (-1) "signal: killed")) ∧
      some (GoError.ExitError (-1) "signal: killed") ≠ some GoError.ETIMEOUT ∧
      "signal: killed" ≠ GoError.ETIMEOUT.Error) := by
  decide

set_option maxRecDepth 100000 in
/-- Witness of C5: the run of `sampleCommand` with the flooding child, killed
by the stdout reader. -/
theorem Execute_killed_reports_witness :
    ∃ result err,
      Execute (sampleWorld floodProcess) sampleCommand = Outcome.returned result err ∧
      result.Killed = true ∧
      result.KillReason
        = (KillCall.mk Trigger.stdout GoError.EOSTDOUT SignalOutcome.success).reason.Error ∧
      err = firstNonNil [floodProcess.Wait, feedFD sampleVerified.Input floodProcess.stdin,
        some GoError.EOSTDOUT, none] ∧
      result.Error = GetString err ∧
      ((KillCall.mk Trigger.stdout GoError.EOSTDOUT SignalOutcome.success).trigger
          = Trigger.stdout →
        some GoError.EOSTDOUT
          = some (KillCall.mk Trigger.stdout GoError.EOSTDOUT SignalOutcome.success).reason ∧
        (floodProcess.Wait = none → feedFD sampleVerified.Input floodProcess.stdin = none →
          err = some (KillCall.mk Trigger.stdout GoError.EOSTDOUT SignalOutcome.success).reason)) ∧
      ((KillCall.mk Trigger.stdout GoError.EOSTDOUT SignalOutcome.success).trigger
          = Trigger.stderr →
        (none : Option GoError)
          = some (KillCall.mk Trigger.stdout GoError.EOSTDOUT SignalOutcome.success).reason ∧
        (floodProcess.Wait = none → feedFD sampleVerified.Input floodProcess.stdin = none →
          some GoError.EOSTDOUT = none →
          err = some (KillCall.mk Trigger.stdout GoError.EOSTDOUT SignalOutcome.success).reason)) ∧
      ((KillCall.mk Trigger.stdout GoError.EOSTDOUT SignalOutcome.success).trigger
          = Trigger.timeout →
        (KillCall.mk Trigger.stdout GoError.EOSTDOUT SignalOutcome.success).reason
          = GoError.ETIMEOUT) :=
  Execute_killed_reports (sampleWorld floodProcess) sampleCommand sampleVerified floodProcess
    ([120, 121], some GoError.EOSTDOUT) ([], none)
    ⟨Trigger.stdout, GoError.EOSTDOUT, SignalOutcome.success⟩
    rfl (by decide) (by decide) (by decide) (by decide) (by decide)

set_option maxRecDepth 100000 in
/-- Witness of C6: the run of `sampleCommand` with the child killed by the
timer. -/
theorem Execute_kill_metadata_witness :
    ∃ result err,
      Execute (sampleWorld sleepProcess) sampleCommand = Outcome.returned result err ∧
      (result.KillReason ≠ "" ↔ result.Killed = true) ∧
      (result.Killed = true ↔
        0 < successfulSends KillState.init
          (killCalls sampleVerified none none sleepProcess.lockOrder)) ∧
      (result.Killed = true →
        ∃ call, firstSuccess (killCalls sampleVerified none none sleepProcess.lockOrder)
            = some call ∧
          result.KillReason = call.reason.Error) :=
  Execute_kill_metadata (sampleWorld sleepProcess) sampleCommand sampleVerified sleepProcess
    ([], none) ([], none) rfl (by decide) (by decide) (by decide) (by decide)
    (by decide) (by decide)

/-- C7: `verify` does not make `Executable` absolute in every case. In
`scriptWorld` the relative name `./run.sh` is not found under the working
directory `/work`, the PATH lookup finds it in the current directory and
returns it as given, and `verify` returns no error with the relative path
`./run.sh` in `Executable`; `Execute` then starts `./run.sh` in `/work`,
where it is absent, and the start fails. The sibling branch, for a name found
under the working directory, stores the joined absolute path:
`tool.sh` becomes `/work/tool.sh`. -/
theorem verify_leaves_relative_executable :
    Command.verify scriptWorld scriptCommand = Except.ok scriptCommand ∧
    scriptWorld.LookPath "./run.sh" = Except.ok "./run.sh" ∧
    IsAbs scriptCommand.Executable = false ∧
    Execute scriptWorld scriptCommand = Outcome.failed
      (NewIOError "Starting program failed"
        (GoError.notExist "fork/exec ./run.sh: no such file or directory")) ∧
    Command.verify scriptWorld toolCommand
      = Except.ok { toolCommand with Executable := "/work/tool.sh" } :=
  ⟨rfl, rfl, rfl, by decide, rfl⟩

/-- Witness of C8: the arguments `-v` and `*.c` of `sampleCommand` become
`-v`, `a.c`, `b.c`. -/
theorem verify_expands_arguments_witness :
    sampleVerified.Arguments = (sampleCommand.Arguments.map (fun arg =>
      if ((sampleWorld sleepProcess).Glob sampleVerified.WorkingDir arg).1.length ≥ 1
      then ((sampleWorld sleepProcess).Glob sampleVerified.WorkingDir arg).1
      else [arg])).flatten :=
  verify_expands_arguments (sampleWorld sleepProcess) sampleCommand sampleVerified rfl

/-- Witness of C9: the rewriting of the verified `limitedCommand` in
`echoWorld`, where the started process depends on what it is started with:
the process is the one for `./rlimiter` with the rewritten argument list in
the directory `.`. -/
theorem rlimit_rewrite_witness :
    ((rlimitRewrite limitedVerified).Arguments
        = limitedVerified.RlimitArgs
          ++ ["-wdir", limitedVerified.WorkingDir, "-executable", limitedVerified.Executable, "--"]
          ++ limitedVerified.Arguments ∧
      (rlimitRewrite limitedVerified).Executable = "./rlimiter" ∧
      (rlimitRewrite limitedVerified).WorkingDir = ".") ∧
    prepare echoWorld limitedCommand
      = Except.ok (applyDefaults (rlimitRewrite limitedVerified),
          echoWorld.Spawn "./rlimiter"
            (limitedVerified.RlimitArgs
              ++ ["-wdir", limitedVerified.WorkingDir, "-executable",
                  limitedVerified.Executable, "--"]
              ++ limitedVerified.Arguments) ".") :=
  ⟨(rlimit_rewrite echoWorld limitedCommand limitedVerified rfl).1 (by decide),
   (rlimit_rewrite echoWorld limitedCommand limitedVerified rfl).2.2.2.2.1 (by decide) rfl⟩

end execute
